import Mathlib

/-!
Verification development for the global todo-list store (`lib.js` of the
`todo-list` MCP tool, plus `category.js`).

The JavaScript source is shallowly embedded: every stateful operation is a
pure Lean function from the in-memory collections (plus the values the source
reads from its environment: the current time, the resolved project name, the
freshly generated UUID) to the resulting collections.  Persisted writes are
modelled as an explicit list of write events, in the order the source issues
them.  JavaScript timestamps (ISO strings / Date values) are modelled as
natural numbers (milliseconds), and the local calendar date of a timestamp as
its day quotient; `null`/`undefined` fields are modelled with `Option`.
-/

/-- Whitespace test used for the model of JavaScript `String.prototype.trim`. -/
def jsWhitespace (c : Char) : Bool := c.isWhitespace

/-- Model of JavaScript `trim`: drop whitespace from both ends of a char list. -/
def trimChars (l : List Char) : List Char :=
  ((l.dropWhile jsWhitespace).reverse.dropWhile jsWhitespace).reverse

/-- Model of JavaScript `split(c)` for a single-character separator. -/
def splitOnChar (c : Char) : List Char → List (List Char)
  | [] => [[]]
  | x :: xs =>
    let r := splitOnChar c xs
    if x = c then [] :: r
    else
      match r with
      | h :: t => (x :: h) :: t
      | [] => [[x]]

/-- Does the second list start with the first?  Used to model `includes`. -/
def startsWithChars : List Char → List Char → Bool
  | [], _ => true
  | _ :: _, [] => false
  | p :: ps, c :: cs => p == c && startsWithChars ps cs

/-- Model of JavaScript `String.prototype.includes` on char lists. -/
def containsSub : List Char → List Char → Bool
  | pat, [] => pat.isEmpty
  | pat, c :: rest => startsWithChars pat (c :: rest) || containsSub pat rest

/-- Case-insensitive substring test: model of
`s.toLowerCase().includes(sub.toLowerCase())`. -/
def jsIncludesLower (sub s : String) : Bool :=
  containsSub (sub.data.map Char.toLower) (s.data.map Char.toLower)

/-- JavaScript truthiness of an optional string (`null`/`undefined` and the
empty string are falsy). -/
def truthyStr : Option String → Bool
  | none => false
  | some s => s ≠ ""

/-- JavaScript truthiness of an optional boolean. -/
def truthyBool : Option Bool → Bool
  | none => false
  | some b => b

/-- A parsed JavaScript `Date`: either a valid timestamp (milliseconds) or an
Invalid Date (whose time value is NaN). -/
inductive JsDate where
  | valid (t : Nat)
  | invalid
deriving DecidableEq, Repr

/-- Model of `new Date(a) >= d` where `a` is a valid stored timestamp and `d`
may be an Invalid Date: every comparison with NaN is false. -/
def jsDateGe (a : Nat) (d : JsDate) : Bool :=
  match d with
  | .valid v => v ≤ a
  | .invalid => false

/-- Model of `new Date(a) <= d`; comparisons with an Invalid Date are false. -/
def jsDateLe (a : Nat) (d : JsDate) : Bool :=
  match d with
  | .valid v => a ≤ v
  | .invalid => false

/-- A stored todo record, as written by `toStorageV1` plus the id and
timestamps `addTodo`/`completeTodoById` attach.  Active records have
`completedAt = none`; history entries have `completedAt = some t`. -/
structure Todo where
  id : String
  category : Option String
  subcategory : Option String
  task : String
  added : Nat
  completedAt : Option Nat := none
deriving DecidableEq, Repr

/-- The persisted history object `{ completed, lastCleared }`. -/
structure History where
  completed : List Todo
  lastCleared : Nat
deriving DecidableEq, Repr

/-- A persisted write, in the order the source awaits it. -/
inductive WriteEvent where
  | writeTodos (todos : List Todo)
  | writeHistory (h : History)
deriving DecidableEq, Repr

/-- Milliseconds per day. -/
def msPerDay : Nat := 86400000

/-- The local calendar day of a timestamp (model of
`toLocaleDateString('en-CA')`: two timestamps are on the same calendar day iff
their day quotients agree). -/
def localDay (t : Nat) : Nat := t / msPerDay

/-- Does a list of todos contain a record with the given id? -/
def hasId (l : List Todo) (i : String) : Bool :=
  l.any (fun t => t.id == i)

/-- The parsed category value object of `category.js`: an ordered list of
category levels plus the task text. -/
structure TodoCategory where
  parts : List String
  task : String
deriving DecidableEq, Repr

/-- The `TodoCategory` constructor: it filters out parts that are falsy or
whitespace-only (`parts.filter(p => p && p.trim().length > 0)`). -/
def TodoCategory.make (parts : List String) (task : String) : TodoCategory :=
  ⟨parts.filter (fun p => !(trimChars p.data).isEmpty), task⟩

/-- Number of category levels (`get depth()`). -/
def TodoCategory.depth (c : TodoCategory) : Nat := c.parts.length

/-- Model of the regex match `^([^:]+)::(.+)$`.  The left capture is the
(nonempty, colon-free) text before the first `::`; the right capture is the
(nonempty) remainder.  The accumulator holds the left part reversed. -/
def matchGo (acc : List Char) : List Char → Option (List Char × List Char)
  | ':' :: ':' :: rest =>
    if acc.isEmpty || rest.isEmpty then none else some (acc.reverse, rest)
  | ':' :: _ => none
  | c :: rest => matchGo (c :: acc) rest
  | [] => none

/-- Maximum category depth from `config.js` (`MAX_CATEGORY_DEPTH = 3`). -/
def MAX_CATEGORY_DEPTH : Nat := 3

/-- Model of `TodoCategory.fromString`: split the task string on the first
`::` (per the regex above), split the left side on `/`, trim the pieces and
drop empty ones, and fail when more than `maxDepth` levels remain. -/
def TodoCategory.fromString (taskString : String) (maxDepth : Nat) :
    Except String TodoCategory :=
  match matchGo [] taskString.data with
  | none => .ok (TodoCategory.make [] (String.mk (trimChars taskString.data)))
  | some (categoryRaw, taskRaw) =>
    let categoryPart := trimChars categoryRaw
    let task := String.mk (trimChars taskRaw)
    let parts := ((splitOnChar '/' categoryPart).map trimChars).filterMap
      (fun p => if p.isEmpty then none else some (String.mk p))
    if maxDepth < parts.length then
      .error "Category depth exceeds maximum"
    else
      .ok (TodoCategory.make parts task)

/-- Model of `toGlobalCategory`: prepend the project name as the first level
(through the filtering constructor). -/
def TodoCategory.toGlobalCategory (c : TodoCategory) (projectName : String) :
    TodoCategory :=
  TodoCategory.make (projectName :: c.parts) c.task

/-- The v1 storage fields produced by `toStorageV1`: only the first two levels
survive (`category: parts[0] || null, subcategory: parts[1] || null`). -/
structure StorageV1 where
  category : Option String
  subcategory : Option String
  task : String
deriving DecidableEq, Repr

/-- Model of `toStorageV1` (parts are never empty strings, so `|| null` is
just the out-of-range case). -/
def TodoCategory.toStorageV1 (c : TodoCategory) : StorageV1 :=
  ⟨c.parts[0]?, c.parts[1]?, c.task⟩

/-- Model of `TodoCategory.fromStorage`: rebuild the levels from the stored
`category`/`subcategory` fields (truthy fields only), through the
constructor. -/
def TodoCategory.fromStorage (t : Todo) : TodoCategory :=
  TodoCategory.make
    ((if truthyStr t.category then t.category.toList else []) ++
      (if truthyStr t.subcategory then t.subcategory.toList else []))
    t.task

/-- The category levels a stored record carries, as `fromStorage` reads them
back. -/
def storedLevels (t : Todo) : List String :=
  (TodoCategory.fromStorage t).parts

/-- Model of `addTodo`.  The environment reads are parameters: `projectName`
is the already-resolved `projectOverride || await detectProjectName()`,
`newId` the fresh UUID, `now` the current time, `todos` the persisted active
collection.  Returns the new collection (also the content of the single
`writeTodos`) and the added record. -/
def addTodo (taskString : String) (autoProject : Bool)
    (projectName : Option String) (newId : String) (now : Nat)
    (todos : List Todo) : Except String (List Todo × Todo) :=
  match TodoCategory.fromString taskString MAX_CATEGORY_DEPTH with
  | .error e => .error e
  | .ok todoCategory =>
    let finalCategory :=
      if autoProject ∧ (todoCategory.depth = 0 ∨ todoCategory.depth = 1) then
        match projectName with
        | some p => todoCategory.toGlobalCategory p
        | none => todoCategory
      else todoCategory
    let stored := finalCategory.toStorageV1
    let newTodo : Todo :=
      { id := newId, category := stored.category, subcategory := stored.subcategory,
        task := stored.task, added := now, completedAt := none }
    .ok (todos ++ [newTodo], newTodo)

/-- The recognized filter fields of `filterTodos` / `filterHistoryItems`.
`none` models an absent (or `undefined`) field; date fields hold the parsed
`new Date(...)` value of a present, truthy date string. -/
structure FilterOptions where
  category : Option String := none
  subcategory : Option String := none
  untagged : Option Bool := none
  currentProject : Option Bool := none
  dateFrom : Option JsDate := none
  dateTo : Option JsDate := none
  searchText : Option String := none
deriving DecidableEq, Repr

/-- Model of `filterTodos` over a given collection.  `projectName` is the
resolved `detectProjectName()` result consulted when `currentProject` is
requested.  Field guards follow the source: `if (options.currentProject)`,
`if (options.category)`, ..., `options.untagged === true`; an absent project
name silently skips the project clause; date comparisons with an Invalid Date
are all false (no error is raised here). -/
def filterTodos (todos : List Todo) (projectName : Option String)
    (o : FilterOptions) : List Todo :=
  let t1 :=
    if truthyBool o.currentProject then
      match projectName with
      | some p => todos.filter (fun t => t.category == some p)
      | none => todos
    else todos
  let t2 := if truthyStr o.category then
      t1.filter (fun t => t.category == o.category) else t1
  let t3 := if truthyStr o.subcategory then
      t2.filter (fun t => t.subcategory == o.subcategory) else t2
  let t4 := if o.untagged == some true then
      t3.filter (fun t => !truthyStr t.category) else t3
  let t5 :=
    match o.dateFrom with
    | some d => t4.filter (fun t => jsDateGe t.added d)
    | none => t4
  let t6 :=
    match o.dateTo with
    | some d => t5.filter (fun t => jsDateLe t.added d)
    | none => t5
  match o.searchText with
  | some s => if s ≠ "" then t6.filter (fun t => jsIncludesLower s t.task) else t6
  | none => t6

/-- Model of `filterHistoryItems`.  Unlike `filterTodos` it validates the date
bounds: a present but unparsable `dateFrom`/`dateTo` throws.  Date bounds
compare against `completedAt` (records without one never match). -/
def filterHistoryItems (items : List Todo) (f : FilterOptions) :
    Except String (List Todo) := do
  let t1 := if truthyStr f.category then
      items.filter (fun t => t.category == f.category) else items
  let t2 := if truthyStr f.subcategory then
      t1.filter (fun t => t.subcategory == f.subcategory) else t1
  let t3 := if truthyBool f.untagged then
      t2.filter (fun t => !truthyStr t.category) else t2
  let t4 ←
    match f.dateFrom with
    | some .invalid => .error "Invalid dateFrom"
    | some (.valid v) =>
      .ok (t3.filter (fun t =>
        match t.completedAt with
        | none => false
        | some c => v ≤ c))
    | none => .ok t3
  let t5 ←
    match f.dateTo with
    | some .invalid => .error "Invalid dateTo"
    | some (.valid v) =>
      .ok (t4.filter (fun t =>
        match t.completedAt with
        | none => false
        | some c => c ≤ v))
    | none => .ok t4
  match f.searchText with
  | some s =>
    if s ≠ "" then .ok (t5.filter (fun t => jsIncludesLower s t.task)) else .ok t5
  | none => .ok t5

/-- Does a bare selector object carry at least one recognized filter key?
(`['category','subcategory','untagged','currentProject','dateFrom','dateTo',
'searchText'].includes(key)` over the present keys). -/
def hasAnyFilterKey (f : FilterOptions) : Bool :=
  f.category.isSome || f.subcategory.isSome || f.untagged.isSome ||
    f.currentProject.isSome || f.dateFrom.isSome || f.dateTo.isSome ||
    f.searchText.isSome

/-- The three shapes a bulk selector object can take: `{ids: [...]}`,
`{filter: {...}}`, or a bare object treated as the filter itself. -/
inductive Selector where
  | ids (l : List String)
  | filter (f : FilterOptions)
  | bare (f : FilterOptions)
deriving DecidableEq, Repr

/-- An update patch.  `task = some s` models a present `task` field;
`category`/`subcategory` distinguish absent (`none`), explicit `null`
(`some none`), and a string (`some (some s)`). -/
structure Updates where
  task : Option String := none
  category : Option (Option String) := none
  subcategory : Option (Option String) := none
deriving DecidableEq, Repr

/-- The `!updates.task && updates.category === undefined &&
updates.subcategory === undefined` emptiness test of the update operations. -/
def emptyUpdates (u : Updates) : Bool :=
  !truthyStr u.task && u.category.isNone && u.subcategory.isNone

/-- Apply a patch to one record (`!== undefined` fields only). -/
def applyUpdates (u : Updates) (t : Todo) : Todo :=
  { t with
    task := match u.task with | some s => s | none => t.task
    category := match u.category with | some c => c | none => t.category
    subcategory := match u.subcategory with | some c => c | none => t.subcategory }

/-- Model of `bulkUpdate`: validate the patch, resolve the selector to an id
set (rejecting an empty `ids` array and a bare selector with no recognized
filter key — but not an explicit empty `{filter: {}}`), then patch every
matching record.  Returns the written collection and the updated records. -/
def bulkUpdate (todos : List Todo) (projectName : Option String)
    (sel : Selector) (u : Updates) :
    Except String (List Todo × List Todo) :=
  if emptyUpdates u then
    .error "No updates provided"
  else
    let resolved : Except String (List String) :=
      match sel with
      | .ids l =>
        if l.isEmpty then .error "ids must be a non-empty array" else .ok l
      | .filter f => .ok ((filterTodos todos projectName f).map Todo.id)
      | .bare f =>
        if hasAnyFilterKey f then .ok ((filterTodos todos projectName f).map Todo.id)
        else .error "Empty selector would update all todos"
    match resolved with
    | .error e => .error e
    | .ok toUpdateIds =>
      let todos2 := todos.map (fun t =>
        if toUpdateIds.contains t.id then applyUpdates u t else t)
      let updated := todos2.filter (fun t => toUpdateIds.contains t.id)
      .ok (todos2, updated)

/-- Model of `bulkDelete`: resolve the selector exactly as `bulkUpdate` does,
then split the collection.  Returns the written (remaining) collection and the
deleted records. -/
def bulkDelete (todos : List Todo) (projectName : Option String)
    (sel : Selector) : Except String (List Todo × List Todo) :=
  let resolved : Except String (List String) :=
    match sel with
    | .ids l =>
      if l.isEmpty then .error "ids must be a non-empty array" else .ok l
    | .filter f => .ok ((filterTodos todos projectName f).map Todo.id)
    | .bare f =>
      if hasAnyFilterKey f then .ok ((filterTodos todos projectName f).map Todo.id)
      else .error "Empty selector would delete all todos"
  match resolved with
  | .error e => .error e
  | .ok toDeleteIds =>
    let remaining := todos.filter (fun t => !toDeleteIds.contains t.id)
    let deleted := todos.filter (fun t => toDeleteIds.contains t.id)
    .ok (remaining, deleted)

/-- Model of `clearHistoryIfNewDay`: when the current local calendar day
differs from that of `lastCleared`, replace the entries with an empty list and
stamp `lastCleared = now`; otherwise return the ledger unchanged. -/
def clearHistoryIfNewDay (now : Nat) (h : History) : History :=
  if localDay now ≠ localDay h.lastCleared then
    { completed := [], lastCleared := now }
  else h

/-- The persisted history after `queryHistory`: the rolled-over ledger is
written back only when its `completed` list is empty (`lastCleared` is an ISO
string, hence always truthy); otherwise the file keeps its previous value. -/
def queryHistoryPersisted (now : Nat) (h : History) : History :=
  let h1 := clearHistoryIfNewDay now h
  if h1.completed.isEmpty then h1 else h

/-- The list `queryHistory` returns: the rolled-over entries, filtered by the
current project when requested (and the project resolves). -/
def queryHistoryList (now : Nat) (h : History) (filterByProject : Bool)
    (projectName : Option String) : List Todo :=
  let h1 := clearHistoryIfNewDay now h
  if filterByProject then
    match projectName with
    | some p => h1.completed.filter (fun t => t.category == some p)
    | none => h1.completed
  else h1.completed

/-- Remove the first record with the given id (model of
`findIndex` + `splice(index, 1)`), returning it and the remaining list. -/
def removeFirstById (l : List Todo) (i : String) : Option (Todo × List Todo) :=
  match l with
  | [] => none
  | t :: rest =>
    if t.id = i then some (t, rest)
    else
      match removeFirstById rest i with
      | none => none
      | some (x, rest2) => some (x, t :: rest2)

/-- Model of `completeTodoById`: find the record, roll the ledger over, move
the record (stamped with `completedAt = now`) onto the ledger, and issue the
two writes in source order — the active collection first, the history ledger
second.  Returns the new collections, the completed record, and the ordered
write events. -/
def completeTodoById (now : Nat) (todos : List Todo) (history : History)
    (i : String) :
    Except String (List Todo × History × Todo × List WriteEvent) :=
  match removeFirstById todos i with
  | none => .error "Todo with this id was not found"
  | some (found, todos2) =>
    let h1 := clearHistoryIfNewDay now history
    let completed := { found with completedAt := some now }
    let h2 := { h1 with completed := h1.completed ++ [completed] }
    .ok (todos2, h2, completed,
      [WriteEvent.writeTodos todos2, WriteEvent.writeHistory h2])

/-- Model of `restoreTodoById`: look the id up in the persisted ledger as it
stands (no rollover check), remove the entry, strip `completedAt`, append it
to the active collection, and write both files (todos first). -/
def restoreTodoById (todos : List Todo) (history : History) (i : String) :
    Except String (List Todo × History × Todo × List WriteEvent) :=
  match removeFirstById history.completed i with
  | none => .error "Completed todo with this id was not found in history"
  | some (found, rest) =>
    let restored := { found with completedAt := none }
    let todos2 := todos ++ [restored]
    let h2 := { history with completed := rest }
    .ok (todos2, h2, restored,
      [WriteEvent.writeTodos todos2, WriteEvent.writeHistory h2])

/-- Model of the index-based `restoreTodo`: resolve the displayed history via
`queryHistory` (which applies and persists the rollover), bounds-check the
1-based index against that view, then delegate to `restoreTodoById` against
the persisted ledger. -/
def restoreTodo (now : Nat) (index : Int) (todos : List Todo)
    (history : History) (filterByProject : Bool) (projectName : Option String) :
    Except String (List Todo × History × Todo × List WriteEvent) :=
  let displayHistory := queryHistoryList now history filterByProject projectName
  let h1 := queryHistoryPersisted now history
  let arrayIndex := index - 1
  if arrayIndex < 0 ∨ (displayHistory.length : Int) ≤ arrayIndex then
    .error "Invalid index"
  else
    match displayHistory[arrayIndex.toNat]? with
    | none => .error "Invalid index"
    | some toRestore =>
      if toRestore.id = "" then .error "Todo does not have an ID"
      else restoreTodoById todos h1 toRestore.id

/-- Model of `clearTodos`: in project scope, keep exactly the records whose
stored `category` differs from the resolved project name (strict `!==`) and
report how many were dropped; otherwise wipe the collection.  Returns the
written collection and the reported count. -/
def clearTodos (todos : List Todo) (filterByProject : Bool)
    (projectName : Option String) : List Todo × Nat :=
  if filterByProject then
    let remaining := todos.filter (fun t => t.category ≠ projectName)
    (remaining, todos.length - remaining.length)
  else ([], todos.length)

/-- Comparing a stored timestamp with an Invalid Date lower bound is false. -/
theorem jsDateGe_invalid (a : Nat) : jsDateGe a .invalid = false := rfl

/-- Comparing a stored timestamp with an Invalid Date upper bound is false. -/
theorem jsDateLe_invalid (a : Nat) : jsDateLe a .invalid = false := rfl

/-- A patch never touches the id of a record. -/
theorem applyUpdates_id (u : Updates) (t : Todo) : (applyUpdates u t).id = t.id := rfl

/-- The record `removeFirstById` extracts carries the id it looked for. -/
theorem removeFirstById_id {l : List Todo} {i : String} {t : Todo}
    {rest : List Todo} (h : removeFirstById l i = some (t, rest)) : t.id = i := by
  induction l generalizing rest with
  | nil => simp [removeFirstById] at h
  | cons x xs ih =>
    rw [removeFirstById] at h
    by_cases hx : x.id = i
    · rw [if_pos hx] at h
      simp only [Option.some.injEq, Prod.mk.injEq] at h
      obtain ⟨h1, _⟩ := h
      rw [← h1]
      exact hx
    · rw [if_neg hx] at h
      cases hr : removeFirstById xs i with
      | none => rw [hr] at h; exact absurd h (by simp)
      | some pr =>
        obtain ⟨x2, rest2⟩ := pr
        rw [hr] at h
        simp only [Option.some.injEq, Prod.mk.injEq] at h
        obtain ⟨h1, _⟩ := h
        subst h1
        exact ih hr

/-- When no record of `l` carries the id, `removeFirstById` finds exactly the
record appended at the end. -/
theorem removeFirstById_append {l : List Todo} {i : String} {c : Todo}
    (hl : ∀ e ∈ l, e.id ≠ i) (hc : c.id = i) :
    removeFirstById (l ++ [c]) i = some (c, l) := by
  induction l with
  | nil => simp [removeFirstById, hc]
  | cons x xs ih =>
    have hx : x.id ≠ i := hl x (by simp)
    rw [List.cons_append, removeFirstById, if_neg hx,
      ih (fun e he => hl e (by simp [he]))]

/-- Membership gives a positive `contains` test over the projected id list. -/
theorem contains_map_id {todos : List Todo} {t : Todo} (ht : t ∈ todos) :
    (todos.map Todo.id).contains t.id = true :=
  List.elem_iff.mpr (List.mem_map.mpr ⟨t, ht, rfl⟩)

/-- Dropping the records matched by a predicate removes exactly the records
the complementary filter keeps. -/
theorem length_sub_filter (p : Todo → Bool) (l : List Todo) :
    l.length - (l.filter p).length = (l.filter (fun t => !p t)).length := by
  induction l with
  | nil => rfl
  | cons x xs ih =>
    have hle := List.length_filter_le p xs
    by_cases hx : p x = true <;>
      simp [List.filter_cons, hx] <;> omega

/-- A one-record active collection: an uncategorized task. -/
def sampleActive : Todo := ⟨"a1", none, none, "x", 0, none⟩

/-- An active record categorized under project `proj`. -/
def sampleProj : Todo := ⟨"a1", some "proj", none, "x", 0, none⟩

/-- A history entry completed at time 0 (local day 0). -/
def sampleCompleted : Todo := ⟨"a1", none, none, "x", 0, some 0⟩

/-- An active record created at time 5. -/
def sampleAdded5 : Todo := ⟨"a1", none, none, "x", 5, none⟩

/-- A history entry completed at time 6. -/
def sampleHist6 : Todo := ⟨"a1", none, none, "x", 5, some 6⟩

/-- C1 counterexample: with a one-record active collection, the selector
`{filter: {}}` does not fail with `InvalidSelector` — `bulkDelete` resolves
the empty filter over the whole collection and deletes the record, and
`bulkUpdate` updates it.  The guard against zero recognized filter keys runs
only on the bare-selector branch, not on an explicit `filter` field. -/
theorem C1_counterexample :
    bulkDelete [sampleActive] none (Selector.filter {}) = .ok ([], [sampleActive]) ∧
    bulkUpdate [sampleActive] none (Selector.filter {}) { task := some "y" } =
      .ok ([⟨"a1", none, none, "y", 0, none⟩], [⟨"a1", none, none, "y", 0, none⟩]) :=
  ⟨rfl, rfl⟩

/-- C2: completing the only active task issues the active-collection write
first (with the task already removed) and the history write second.  At the
crash point after the first write, the persisted active collection `[]` does
not carry the task id and the persisted history ledger is still the
pre-operation `⟨[], 0⟩`, which does not carry it either — the completed task
is present in neither persisted collection, contradicting the claimed
destination-before-source ordering. -/
theorem C2_complete_writes_active_before_history :
    completeTodoById 100 [sampleActive] ⟨[], 0⟩ "a1" =
      .ok ([], ⟨[⟨"a1", none, none, "x", 0, some 100⟩], 0⟩,
        ⟨"a1", none, none, "x", 0, some 100⟩,
        [WriteEvent.writeTodos [],
          WriteEvent.writeHistory ⟨[⟨"a1", none, none, "x", 0, some 100⟩], 0⟩]) ∧
    hasId [] "a1" = false ∧
    hasId (History.mk [] 0).completed "a1" = false :=
  ⟨rfl, rfl, rfl⟩

/-- C4 counterexample: an entry completed at time 0 (local day 0) is still
restorable by id when the current local day is 1 — `restoreTodoById` never
consults the clock and applies no rollover, so the restore succeeds instead
of failing with `NotFound`. -/
theorem C4_counterexample :
    localDay 0 < localDay msPerDay ∧
    restoreTodoById [] ⟨[sampleCompleted], 0⟩ "a1" =
      .ok ([sampleActive], ⟨[], 0⟩, sampleActive,
        [WriteEvent.writeTodos [sampleActive], WriteEvent.writeHistory ⟨[], 0⟩]) :=
  ⟨by decide, rfl⟩

/-- C5 counterexample: with the project name unresolved (`none`), a filter
with `currentProject: true` matches the whole collection instead of nothing,
and a bulk delete driven by it deletes the record. -/
theorem C5_counterexample :
    filterTodos [sampleProj] none { currentProject := some true } = [sampleProj] ∧
    bulkDelete [sampleProj] none (Selector.filter { currentProject := some true }) =
      .ok ([], [sampleProj]) :=
  ⟨rfl, rfl⟩

/-- C6 counterexample: an unparsable `dateFrom` makes `filterTodos` silently
return the empty match (its type is a plain list — no error channel is used),
and a bulk mutation driven by it silently mutates nothing, instead of the
call failing with `InvalidFilter`. -/
theorem C6_counterexample :
    filterTodos [sampleAdded5] none { dateFrom := some JsDate.invalid } = [] ∧
    bulkDelete [sampleAdded5] none (Selector.filter { dateFrom := some JsDate.invalid }) =
      .ok ([sampleAdded5], []) :=
  ⟨rfl, rfl⟩

/-- C7 counterexample: `a/b/c::t` parses to three category levels (permitted
at the default depth 3), but the persisted record carries only the first two
— the third level is discarded by the v1 storage format. -/
theorem C7_counterexample :
    TodoCategory.fromString "a/b/c::t" MAX_CATEGORY_DEPTH = .ok ⟨["a", "b", "c"], "t"⟩ ∧
    addTodo "a/b/c::t" true none "id1" 0 [] =
      .ok ([⟨"id1", some "a", some "b", "t", 0, none⟩],
        ⟨"id1", some "a", some "b", "t", 0, none⟩) ∧
    storedLevels ⟨"id1", some "a", some "b", "t", 0, none⟩ = ["a", "b"] :=
  ⟨rfl, rfl, rfl⟩

/-- C8 counterexample: a task string with three explicit levels is not stored
with its category path untouched — level `z` is dropped by the storage
format, for any current project. -/
theorem C8_counterexample :
    TodoCategory.fromString "x/y/z::w" MAX_CATEGORY_DEPTH = .ok ⟨["x", "y", "z"], "w"⟩ ∧
    addTodo "x/y/z::w" true (some "proj") "id2" 0 [] =
      .ok ([⟨"id2", some "x", some "y", "w", 0, none⟩],
        ⟨"id2", some "x", some "y", "w", 0, none⟩) ∧
    storedLevels ⟨"id2", some "x", some "y", "w", 0, none⟩ ≠ ["x", "y", "z"] :=
  ⟨rfl, rfl, by decide⟩

/-- An empty filter object applies no clause: it matches the collection. -/
theorem filterTodos_default (todos : List Todo) (p : Option String) :
    filterTodos todos p {} = todos := rfl

/-- C1 (amended): `{ids: []}` and a bare selector with zero recognized filter
keys always fail and mutate nothing, but the explicit selector `{filter: {}}`
does not fail — the empty filter matches the whole active collection, so
`bulkDelete` deletes every task and `bulkUpdate` patches every task. -/
theorem C1_selector_safety_amended (todos : List Todo) (p : Option String)
    (u : Updates) (hu : emptyUpdates u = false) :
    bulkDelete todos p (Selector.ids []) = .error "ids must be a non-empty array" ∧
    bulkUpdate todos p (Selector.ids []) u = .error "ids must be a non-empty array" ∧
    bulkDelete todos p (Selector.bare {}) = .error "Empty selector would delete all todos" ∧
    bulkUpdate todos p (Selector.bare {}) u = .error "Empty selector would update all todos" ∧
    bulkDelete todos p (Selector.filter {}) = .ok ([], todos) ∧
    bulkUpdate todos p (Selector.filter {}) u =
      .ok (todos.map (applyUpdates u), todos.map (applyUpdates u)) := by
  have hid : ∀ t ∈ todos, (todos.map Todo.id).contains t.id = true :=
    fun t ht => contains_map_id ht
  have hrem : todos.filter (fun t => !(todos.map Todo.id).contains t.id) = [] :=
    List.filter_eq_nil_iff.mpr (fun t ht => by rw [hid t ht]; decide)
  have hdel : todos.filter (fun t => (todos.map Todo.id).contains t.id) = todos :=
    List.filter_eq_self.mpr hid
  have hmap : todos.map (fun t =>
      if (todos.map Todo.id).contains t.id then applyUpdates u t else t) =
      todos.map (applyUpdates u) :=
    List.map_congr_left (fun t ht => by rw [hid t ht]; simp)
  have hupd : (todos.map (applyUpdates u)).filter
      (fun t => (todos.map Todo.id).contains t.id) = todos.map (applyUpdates u) := by
    refine List.filter_eq_self.mpr (fun x hx => ?_)
    obtain ⟨t, ht, rfl⟩ := List.mem_map.mp hx
    rw [applyUpdates_id]
    exact hid t ht
  have hff : ¬ (false = true) := by decide
  refine ⟨rfl, ?_, rfl, ?_, ?_, ?_⟩
  · have e3 : bulkUpdate todos p (Selector.ids []) u =
        if emptyUpdates u then .error "No updates provided"
        else .error "ids must be a non-empty array" := rfl
    rw [e3, hu, if_neg hff]
  · have e4 : bulkUpdate todos p (Selector.bare {}) u =
        if emptyUpdates u then .error "No updates provided"
        else .error "Empty selector would update all todos" := rfl
    rw [e4, hu, if_neg hff]
  · have e1 : bulkDelete todos p (Selector.filter {}) =
        .ok (todos.filter (fun t => !(todos.map Todo.id).contains t.id),
          todos.filter (fun t => (todos.map Todo.id).contains t.id)) := rfl
    rw [e1, hrem, hdel]
  · have e2 : bulkUpdate todos p (Selector.filter {}) u =
        if emptyUpdates u then .error "No updates provided"
        else .ok (todos.map (fun t =>
            if (todos.map Todo.id).contains t.id then applyUpdates u t else t),
          (todos.map (fun t =>
            if (todos.map Todo.id).contains t.id then applyUpdates u t else t)).filter
            (fun t => (todos.map Todo.id).contains t.id)) := rfl
    rw [e2, hu, if_neg hff, hmap, hupd]

/-- Witness for C1: a concrete one-record collection and a nonempty patch. -/
theorem C1_selector_safety_amended_witness :
    emptyUpdates { task := some "y" } = false ∧
    (bulkDelete [sampleActive] none (Selector.ids []) = .error "ids must be a non-empty array" ∧
      bulkUpdate [sampleActive] none (Selector.ids []) { task := some "y" } =
        .error "ids must be a non-empty array" ∧
      bulkDelete [sampleActive] none (Selector.bare {}) =
        .error "Empty selector would delete all todos" ∧
      bulkUpdate [sampleActive] none (Selector.bare {}) { task := some "y" } =
        .error "Empty selector would update all todos" ∧
      bulkDelete [sampleActive] none (Selector.filter {}) = .ok ([], [sampleActive]) ∧
      bulkUpdate [sampleActive] none (Selector.filter {}) { task := some "y" } =
        .ok ([sampleActive].map (applyUpdates { task := some "y" }),
          [sampleActive].map (applyUpdates { task := some "y" }))) :=
  ⟨by decide, C1_selector_safety_amended [sampleActive] none { task := some "y" } (by decide)⟩

/-- C3: the lazy rollover is idempotent within a calendar day.  Querying on
the same local day as `lastCleared` leaves the persisted ledger (entries and
`lastCleared`) unchanged and returns the entries; a single query on any later
day persists the cleared ledger with `lastCleared = now`, and any further
query on that same day leaves it unchanged. -/
theorem C3_rollover_idempotence (now now2 : Nat) (h : History) :
    (localDay now = localDay h.lastCleared →
      queryHistoryPersisted now h = h ∧
      queryHistoryList now h false none = h.completed) ∧
    (localDay h.lastCleared < localDay now →
      queryHistoryPersisted now h = ⟨[], now⟩ ∧
      (localDay now2 = localDay now →
        queryHistoryPersisted now2 ⟨[], now⟩ = ⟨[], now⟩)) := by
  constructor
  · intro heq
    have hcl : clearHistoryIfNewDay now h = h := by
      simp [clearHistoryIfNewDay, heq]
    exact ⟨by simp [queryHistoryPersisted, hcl], by simp [queryHistoryList, hcl]⟩
  · intro hlt
    have hne : localDay now ≠ localDay h.lastCleared := by omega
    have hcl : clearHistoryIfNewDay now h = ⟨[], now⟩ := by
      simp [clearHistoryIfNewDay, hne]
    refine ⟨by simp [queryHistoryPersisted, hcl], fun h2eq => ?_⟩
    have hcl2 : clearHistoryIfNewDay now2 ⟨[], now⟩ = ⟨[], now⟩ := by
      simp [clearHistoryIfNewDay, h2eq]
    simp [queryHistoryPersisted, hcl2]

/-- Witness for C3: a same-day query at time 5 keeps the ledger; the first
query on day 1 clears it; a further query later on day 1 keeps it cleared. -/
theorem C3_rollover_idempotence_witness :
    queryHistoryPersisted 5 ⟨[sampleCompleted], 0⟩ = ⟨[sampleCompleted], 0⟩ ∧
    queryHistoryPersisted msPerDay ⟨[sampleCompleted], 0⟩ = ⟨[], msPerDay⟩ ∧
    queryHistoryPersisted (msPerDay + 5) ⟨[], msPerDay⟩ = ⟨[], msPerDay⟩ :=
  ⟨((C3_rollover_idempotence 5 0 ⟨[sampleCompleted], 0⟩).1 (by decide)).1,
    ((C3_rollover_idempotence msPerDay (msPerDay + 5) ⟨[sampleCompleted], 0⟩).2
      (by decide)).1,
    ((C3_rollover_idempotence msPerDay (msPerDay + 5) ⟨[sampleCompleted], 0⟩).2
      (by decide)).2 (by decide)⟩

/-- C4 (amended): after a day rollover the index-based restore cannot reach a
previous-day entry (the displayed history is empty, so every index fails),
but the id-based `restoreTodoById` resolves against the persisted entries
without any rollover check: an entry still present in the file is restored
successfully, whatever day it was completed on. -/
theorem C4_restore_rollover_amended (now : Nat) (index : Int)
    (todos : List Todo) (h : History) (fb : Bool) (p : Option String)
    (i : String) (e : Todo) (rest : List Todo)
    (hday : localDay h.lastCleared < localDay now)
    (hfind : removeFirstById h.completed i = some (e, rest)) :
    restoreTodo now index todos h fb p = .error "Invalid index" ∧
    restoreTodoById todos h i =
      .ok (todos ++ [{ e with completedAt := none }], ⟨rest, h.lastCleared⟩,
        { e with completedAt := none },
        [WriteEvent.writeTodos (todos ++ [{ e with completedAt := none }]),
          WriteEvent.writeHistory ⟨rest, h.lastCleared⟩]) := by
  have hne : localDay now ≠ localDay h.lastCleared := by omega
  have hcl : clearHistoryIfNewDay now h = ⟨[], now⟩ := by
    simp [clearHistoryIfNewDay, hne]
  have hlist : queryHistoryList now h fb p = [] := by
    unfold queryHistoryList
    rw [hcl]
    cases fb <;> cases p <;> simp
  constructor
  · unfold restoreTodo
    rw [hlist, if_pos (by simp only [List.length_nil]; omega)]
  · unfold restoreTodoById
    rw [hfind]

/-- Witness for C4 (amended): ledger last cleared on day 0 holding an entry
completed on day 0; the current time is on day 1. -/
theorem C4_restore_rollover_amended_witness :
    localDay (0 : Nat) < localDay msPerDay ∧
    removeFirstById [sampleCompleted] "a1" = some (sampleCompleted, []) ∧
    (restoreTodo msPerDay 1 [] ⟨[sampleCompleted], 0⟩ false none =
        .error "Invalid index" ∧
      restoreTodoById [] ⟨[sampleCompleted], 0⟩ "a1" =
        .ok ([sampleActive], ⟨[], 0⟩, sampleActive,
          [WriteEvent.writeTodos [sampleActive],
            WriteEvent.writeHistory ⟨[], 0⟩])) :=
  ⟨by decide, rfl,
    C4_restore_rollover_amended msPerDay 1 [] ⟨[sampleCompleted], 0⟩ false none
      "a1" sampleCompleted [] (by decide) rfl⟩

/-- C5 (amended): when the project name resolves to `null`, the
`currentProject` clause is skipped entirely — filtering behaves exactly as if
`currentProject` were absent, so the filter matches every task that passes
the remaining clauses rather than matching nothing. -/
theorem C5_unresolved_project_skips_clause (todos : List Todo)
    (f : FilterOptions) :
    filterTodos todos none f =
      filterTodos todos none { f with currentProject := none } := by
  cases hb : truthyBool f.currentProject <;> simp [filterTodos, hb, truthyBool]

/-- C6 (amended): an unparsable date bound — whether `dateFrom` or `dateTo` —
fails the call with an error when filtering history, but when filtering the
active collection it silently matches no tasks (every NaN comparison is
false) — no error is raised there.  `f` carries an invalid `dateFrom`; `g`
carries no `dateFrom` and an invalid `dateTo`. -/
theorem C6_invalid_date_amended (todos items : List Todo) (p : Option String)
    (f g : FilterOptions) (hf : f.dateFrom = some JsDate.invalid)
    (hg1 : g.dateFrom = none) (hg2 : g.dateTo = some JsDate.invalid) :
    (filterTodos todos p f = [] ∧
      filterHistoryItems items f = .error "Invalid dateFrom") ∧
    (filterTodos todos p g = [] ∧
      filterHistoryItems items g = .error "Invalid dateTo") := by
  refine ⟨⟨?_, ?_⟩, ?_, ?_⟩
  · cases hdt : f.dateTo <;> cases hst : f.searchText <;>
      simp [filterTodos, hf, hdt, hst, jsDateGe_invalid, List.filter_false]
  · unfold filterHistoryItems
    rw [hf]
    rfl
  · cases hst : g.searchText <;>
      simp [filterTodos, hg1, hg2, hst, jsDateLe_invalid, List.filter_false]
  · unfold filterHistoryItems
    rw [hg1, hg2]
    rfl

/-- Witness for C6: a concrete active record and history entry fed to an
invalid `dateFrom` filter and to an invalid `dateTo` filter. -/
theorem C6_invalid_date_amended_witness :
    ({ dateFrom := some JsDate.invalid } : FilterOptions).dateFrom =
      some JsDate.invalid ∧
    ({ dateTo := some JsDate.invalid } : FilterOptions).dateFrom = none ∧
    ({ dateTo := some JsDate.invalid } : FilterOptions).dateTo =
      some JsDate.invalid ∧
    ((filterTodos [sampleAdded5] none { dateFrom := some JsDate.invalid } = [] ∧
      filterHistoryItems [sampleHist6] { dateFrom := some JsDate.invalid } =
        .error "Invalid dateFrom") ∧
     (filterTodos [sampleAdded5] none { dateTo := some JsDate.invalid } = [] ∧
      filterHistoryItems [sampleHist6] { dateTo := some JsDate.invalid } =
        .error "Invalid dateTo")) :=
  ⟨rfl, rfl, rfl, C6_invalid_date_amended [sampleAdded5] [sampleHist6] none
    { dateFrom := some JsDate.invalid } { dateTo := some JsDate.invalid }
    rfl rfl rfl⟩

/-- C7 (amended): an add whose task string parses to three well-formed levels
succeeds, but the persisted record carries only the first two levels in
order — the third is discarded by the v1 storage format, whose record has
only `category` and `subcategory` fields. -/
theorem C7_storage_truncation (s : String) (c : TodoCategory) (auto : Bool)
    (p : Option String) (i : String) (now : Nat) (todos : List Todo)
    (hc : TodoCategory.fromString s MAX_CATEGORY_DEPTH = .ok c)
    (h3 : c.parts.length = 3) :
    addTodo s auto p i now todos =
      .ok (todos ++ [⟨i, c.parts[0]?, c.parts[1]?, c.task, now, none⟩],
        ⟨i, c.parts[0]?, c.parts[1]?, c.task, now, none⟩) := by
  have hd : ¬ (auto = true ∧ (TodoCategory.depth c = 0 ∨ TodoCategory.depth c = 1)) := by
    rintro ⟨-, hor⟩
    unfold TodoCategory.depth at hor
    rcases hor with h | h <;> omega
  unfold addTodo
  split
  · next e heq => rw [hc] at heq; exact Except.noConfusion heq
  · next tc heq =>
    rw [hc] at heq
    injection heq with hcc
    subst hcc
    rw [if_neg hd]
    rfl

/-- Witness for C7 (amended): the three-level task string `a/b/c::t`. -/
theorem C7_storage_truncation_witness :
    TodoCategory.fromString "a/b/c::t" MAX_CATEGORY_DEPTH =
      .ok ⟨["a", "b", "c"], "t"⟩ ∧
    (["a", "b", "c"] : List String).length = 3 ∧
    addTodo "a/b/c::t" true none "id1" 0 [] =
      .ok ([⟨"id1", some "a", some "b", "t", 0, none⟩],
        ⟨"id1", some "a", some "b", "t", 0, none⟩) :=
  ⟨rfl, rfl,
    C7_storage_truncation "a/b/c::t" ⟨["a", "b", "c"], "t"⟩ true none "id1" 0 []
      rfl rfl⟩

/-- C8 (amended): with auto-prefixing on, the resolved project name is
inserted as level 1 (shifting the existing levels right in the stored
`category`/`subcategory` fields) exactly when the parsed category has 0 or 1
levels and the project is non-null: at 0 or 1 levels with a null project the
parsed levels are stored unshifted, and a task string with 2 or more explicit
levels never receives the prefix and its stored record is independent of the
current project — but only its first two levels are stored, so a third
explicit level is truncated rather than the whole path being kept untouched. -/
theorem C8_project_prefix_amended (s : String) (c : TodoCategory) (i : String)
    (now : Nat) (todos : List Todo) (pn : String)
    (hc : TodoCategory.fromString s MAX_CATEGORY_DEPTH = .ok c)
    (hparts : ∀ q ∈ c.parts, (trimChars q.data).isEmpty = false)
    (hpn : (trimChars pn.data).isEmpty = false) :
    (c.parts.length = 0 ∨ c.parts.length = 1 →
      addTodo s true (some pn) i now todos =
        .ok (todos ++ [⟨i, some pn, c.parts[0]?, c.task, now, none⟩],
          ⟨i, some pn, c.parts[0]?, c.task, now, none⟩)) ∧
    (c.parts.length = 0 ∨ c.parts.length = 1 →
      addTodo s true none i now todos =
        .ok (todos ++ [⟨i, c.parts[0]?, c.parts[1]?, c.task, now, none⟩],
          ⟨i, c.parts[0]?, c.parts[1]?, c.task, now, none⟩)) ∧
    (2 ≤ c.parts.length → ∀ p : Option String,
      addTodo s true p i now todos =
        .ok (todos ++ [⟨i, c.parts[0]?, c.parts[1]?, c.task, now, none⟩],
          ⟨i, c.parts[0]?, c.parts[1]?, c.task, now, none⟩)) := by
  have hglob : TodoCategory.toGlobalCategory c pn = ⟨pn :: c.parts, c.task⟩ := by
    unfold TodoCategory.toGlobalCategory TodoCategory.make
    have : (pn :: c.parts).filter (fun q => !(trimChars q.data).isEmpty) =
        pn :: c.parts := by
      refine List.filter_eq_self.mpr (fun q hq => ?_)
      rcases List.mem_cons.mp hq with rfl | h
      · rw [hpn]; rfl
      · rw [hparts q h]; rfl
    rw [this]
  constructor
  · intro hlen
    have hcond : (true = true) ∧ (TodoCategory.depth c = 0 ∨ TodoCategory.depth c = 1) :=
      ⟨rfl, by unfold TodoCategory.depth; exact hlen⟩
    unfold addTodo
    split
    · next e heq => rw [hc] at heq; exact Except.noConfusion heq
    · next tc heq =>
      rw [hc] at heq
      injection heq with hcc
      subst hcc
      rw [if_pos hcond]
      simp only [hglob, TodoCategory.toStorageV1]
      simp
  constructor
  · intro hlen
    have hcond : (true = true) ∧ (TodoCategory.depth c = 0 ∨ TodoCategory.depth c = 1) :=
      ⟨rfl, by unfold TodoCategory.depth; exact hlen⟩
    unfold addTodo
    split
    · next e heq => rw [hc] at heq; exact Except.noConfusion heq
    · next tc heq =>
      rw [hc] at heq
      injection heq with hcc
      subst hcc
      rw [if_pos hcond]
      rfl
  · intro hlen p
    have hd : ¬ ((true = true) ∧ (TodoCategory.depth c = 0 ∨ TodoCategory.depth c = 1)) := by
      rintro ⟨-, hor⟩
      unfold TodoCategory.depth at hor
      rcases hor with h | h <;> omega
    unfold addTodo
    split
    · next e heq => rw [hc] at heq; exact Except.noConfusion heq
    · next tc heq =>
      rw [hc] at heq
      injection heq with hcc
      subst hcc
      rw [if_neg hd]
      rfl

/-- Witness for C8 (amended): `backend::Fix bug` under project `tdl` is stored
as `tdl/backend` (prefix inserted, levels shifted); the same string with a
null project is stored as plain `backend`; `other/api::Add endpoint` is
stored as `other/api` with the same project (no prefixing). -/
theorem C8_project_prefix_amended_witness :
    TodoCategory.fromString "backend::Fix bug" MAX_CATEGORY_DEPTH =
      .ok ⟨["backend"], "Fix bug"⟩ ∧
    addTodo "backend::Fix bug" true (some "tdl") "id3" 7 [] =
      .ok ([⟨"id3", some "tdl", some "backend", "Fix bug", 7, none⟩],
        ⟨"id3", some "tdl", some "backend", "Fix bug", 7, none⟩) ∧
    addTodo "backend::Fix bug" true none "id5" 7 [] =
      .ok ([⟨"id5", some "backend", none, "Fix bug", 7, none⟩],
        ⟨"id5", some "backend", none, "Fix bug", 7, none⟩) ∧
    addTodo "other/api::Add endpoint" true (some "tdl") "id4" 7 [] =
      .ok ([⟨"id4", some "other", some "api", "Add endpoint", 7, none⟩],
        ⟨"id4", some "other", some "api", "Add endpoint", 7, none⟩) :=
  ⟨rfl,
    (C8_project_prefix_amended "backend::Fix bug" ⟨["backend"], "Fix bug"⟩
      "id3" 7 [] "tdl" rfl (by decide) (by decide)).1 (Or.inr rfl),
    (C8_project_prefix_amended "backend::Fix bug" ⟨["backend"], "Fix bug"⟩
      "id5" 7 [] "tdl" rfl (by decide) (by decide)).2.1 (Or.inr rfl),
    (C8_project_prefix_amended "other/api::Add endpoint"
      ⟨["other", "api"], "Add endpoint"⟩ "id4" 7 [] "tdl" rfl (by decide)
      (by decide)).2.2 (by decide) (some "tdl")⟩

/-- C9: completing an active task and then restoring it by the same id yields
an active record with the same id and creation timestamp and no
`completedAt`, appended to the active collection. -/
theorem C9_complete_restore_id_stable (now : Nat) (todos : List Todo)
    (h : History) (i : String) (t : Todo) (rest : List Todo)
    (hfind : removeFirstById todos i = some (t, rest))
    (hhist : ∀ e ∈ h.completed, e.id ≠ i) :
    ∃ todos1 h1 c w1, completeTodoById now todos h i = .ok (todos1, h1, c, w1) ∧
      ∃ todos2 h2 r w2, restoreTodoById todos1 h1 i = .ok (todos2, h2, r, w2) ∧
        r.id = t.id ∧ r.added = t.added ∧ r.completedAt = none ∧
        todos2 = todos1 ++ [r] := by
  have hcomp : completeTodoById now todos h i =
      .ok (rest,
        ⟨(clearHistoryIfNewDay now h).completed ++ [{ t with completedAt := some now }],
          (clearHistoryIfNewDay now h).lastCleared⟩,
        { t with completedAt := some now },
        [WriteEvent.writeTodos rest,
          WriteEvent.writeHistory
            ⟨(clearHistoryIfNewDay now h).completed ++ [{ t with completedAt := some now }],
              (clearHistoryIfNewDay now h).lastCleared⟩]) := by
    unfold completeTodoById
    rw [hfind]
  have hcl : ∀ e ∈ (clearHistoryIfNewDay now h).completed, e.id ≠ i := by
    unfold clearHistoryIfNewDay
    split
    · intro e he
      exact absurd he (List.not_mem_nil e)
    · exact hhist
  have htid : t.id = i := removeFirstById_id hfind
  have hfind2 : removeFirstById
      ((clearHistoryIfNewDay now h).completed ++ [{ t with completedAt := some now }]) i =
      some ({ t with completedAt := some now }, (clearHistoryIfNewDay now h).completed) :=
    removeFirstById_append hcl htid
  have hrest : restoreTodoById rest
      ⟨(clearHistoryIfNewDay now h).completed ++ [{ t with completedAt := some now }],
        (clearHistoryIfNewDay now h).lastCleared⟩ i =
      .ok (rest ++ [{ t with completedAt := none }],
        ⟨(clearHistoryIfNewDay now h).completed, (clearHistoryIfNewDay now h).lastCleared⟩,
        { t with completedAt := none },
        [WriteEvent.writeTodos (rest ++ [{ t with completedAt := none }]),
          WriteEvent.writeHistory
            ⟨(clearHistoryIfNewDay now h).completed,
              (clearHistoryIfNewDay now h).lastCleared⟩]) := by
    unfold restoreTodoById
    dsimp only
    rw [hfind2]
  exact ⟨rest, _, _, _, hcomp, _, _, _, _, hrest, rfl, rfl, rfl, rfl⟩

/-- Witness for C9: complete and restore the single active record. -/
theorem C9_complete_restore_id_stable_witness :
    removeFirstById [sampleActive] "a1" = some (sampleActive, []) ∧
    (∃ todos1 h1 c w1,
      completeTodoById 100 [sampleActive] ⟨[], 0⟩ "a1" = .ok (todos1, h1, c, w1) ∧
      ∃ todos2 h2 r w2, restoreTodoById todos1 h1 "a1" = .ok (todos2, h2, r, w2) ∧
        r.id = sampleActive.id ∧ r.added = sampleActive.added ∧
        r.completedAt = none ∧ todos2 = todos1 ++ [r]) :=
  ⟨rfl, C9_complete_restore_id_stable 100 [sampleActive] ⟨[], 0⟩ "a1"
    sampleActive [] rfl (by simp)⟩

/-- C10: clearing in project scope with an unresolvable project name is not a
no-op and does not clear everything — the strict `!==` comparison against
`null` keeps exactly the categorized records, so precisely the untagged
records (stored category `null`) are deleted and their count is returned. -/
theorem C10_clear_project_scope_null_project (todos : List Todo) :
    clearTodos todos true none =
      (todos.filter (fun t => t.category.isSome),
        (todos.filter (fun t => t.category.isNone)).length) := by
  have h1 : todos.filter (fun t => decide (t.category ≠ none)) =
      todos.filter (fun t => t.category.isSome) :=
    List.filter_congr (fun t _ => by cases t.category <;> simp)
  have h2 : todos.length - (todos.filter (fun t => t.category.isSome)).length =
      (todos.filter (fun t => t.category.isNone)).length := by
    rw [length_sub_filter]
    exact congrArg List.length
      (List.filter_congr (fun t _ => by cases t.category <;> simp))
  unfold clearTodos
  rw [if_pos rfl]
  dsimp only
  rw [h1, h2]
